import Mathlib

/- Shallow embedding of the road-survey visualization pipeline (src/app.py):
archive ingestion, record normalization, fuzzy frame-to-image matching,
survey filtering and centroid aggregation. Numeric coordinate values are
embedded as rationals. -/

namespace RoadSurvey

/-- Raw bytes of an image payload, as an abstract byte list. -/
abbrev Bytes := List Nat

/-- A scalar field value as it arrives from metadata.json: a JSON number, a
JSON string, or a missing value (absent key or JSON null, which pandas
represents as NaN/None in the built DataFrame). -/
inductive JVal where
  | num (q : ℚ)
  | str (s : String)
  | null
deriving DecidableEq

/-- pandas dropna keeps a cell unless it is missing (NaN/None); a present
string cell is not missing. -/
def JVal.isPresent : JVal → Bool
  | JVal.null => false
  | _ => true

/-- Whether the value is a JSON number. -/
def JVal.isNum : JVal → Bool
  | JVal.num _ => true
  | _ => false

/-- The rational payload of a numeric value, if any. -/
def JVal.numQ : JVal → Option ℚ
  | JVal.num q => some q
  | _ => none

/-- Python str.lower, character by character. -/
def strLower (s : String) : String := String.mk (s.data.map Char.toLower)

/-- Bool test that the first character list is an initial segment of the
second (used reversed, to implement str.endswith). -/
def revPre : List Char → List Char → Bool
  | [], _ => true
  | _ :: _, [] => false
  | a :: as, b :: bs => a == b && revPre as bs

/-- Python str.endswith. -/
def strEndsWith (s suf : String) : Bool := revPre suf.data.reverse s.data.reverse

/-- Python str.rstrip with a string argument: the argument is a SET of
characters, and every trailing character belonging to that set is removed
(this is the semantics of the call filename.lower().rstrip(".jpg") on
line 184 of src/app.py). -/
def pyRstrip (s : String) (cs : List Char) : String :=
  String.mk ((s.data.reverse.dropWhile (fun c => cs.contains c)).reverse)

/-- Python s[:-n] (drop the last n characters), used on line 55 of
src/app.py to remove the trailing archive extension. -/
def strDropRight (s : String) (n : Nat) : String :=
  String.mk (s.data.take (s.data.length - n))

/-- One decimal digit character (for arguments below 10). -/
def decDigit (d : Nat) : Char :=
  match d with
  | 0 => '0'
  | 1 => '1'
  | 2 => '2'
  | 3 => '3'
  | 4 => '4'
  | 5 => '5'
  | 6 => '6'
  | 7 => '7'
  | 8 => '8'
  | _ => '9'

/-- Fuel-bounded decimal digit expansion, most significant digit first; a
fuel of n + 1 is always enough for n. -/
def decDigitsAux : Nat → Nat → List Char
  | 0, _ => []
  | fuel + 1, n =>
    if n < 10 then [decDigit n]
    else decDigitsAux fuel (n / 10) ++ [decDigit (n % 10)]

/-- Python str(int(...)): the canonical decimal string of a natural number,
without leading zeros. -/
def natStr (n : Nat) : String := String.mk (decDigitsAux (n + 1) n)

/-- The archive extension suffix. -/
def zipExt : String := ".zip"

/-- The image extension suffix. -/
def jpgExt : String := ".jpg"

/-- The character set that Python rstrip receives on line 184. -/
def jpgChars : List Char := ['.', 'j', 'p', 'g']

/-- The images cache of src/app.py line 50: an insertion-ordered mapping
from (survey identifier, image filename) to raw image bytes. -/
abbrev ImagesCache := List ((String × String) × Bytes)

/-- Lines 182-184 of src/app.py: the stripped, lowercased form of a cached
filename against which the decimal frame string is suffix-tested. -/
def frameKey (filename : String) : String :=
  pyRstrip (strLower filename) jpgChars

/-- Lines 181-186 of src/app.py: scan the images cache in order and return
the first entry whose survey equals the queried survey and whose
rstrip-processed filename ends with the canonical decimal frame string. -/
def matchEntry (cache : ImagesCache) (surveyQ : String) (frameNum : Nat) :
    Option ((String × String) × Bytes) :=
  cache.find? (fun e =>
    decide (e.1.1 = surveyQ) && strEndsWith (frameKey e.1.2) (natStr frameNum))

/-- The byte payload returned by the matcher loop (img_bytes on line 185),
none standing for the missing-image sentinel of lines 192-193. -/
def fuzzyFrameMatch (cache : ImagesCache) (surveyQ : String) (frameNum : Nat) :
    Option Bytes :=
  (matchEntry cache surveyQ frameNum).map (fun e => e.2)

/-- Modelled from the spec (FuzzyFrameMatcher, section 4.5), for comparison
with the code: strip the image extension from the candidate filename. -/
def stripImageExtension (filename : String) : String :=
  if strEndsWith (strLower filename) jpgExt = true then strDropRight filename 4
  else filename

/-- Modelled from the spec (FuzzyFrameMatcher, section 4.5), for comparison
with the code: return the first same-survey candidate whose filename, after
stripping its image extension, ends with the canonical decimal frame
string. -/
def specFrameMatch (cache : ImagesCache) (surveyQ : String) (frameNum : Nat) :
    Option Bytes :=
  (cache.find? (fun e =>
    decide (e.1.1 = surveyQ) &&
      strEndsWith (stripImageExtension e.1.2) (natStr frameNum))).map
    (fun e => e.2)

/-- Image bytes used by the concrete matcher scenarios. -/
def bugImage : Bytes := [42]

/-- A cache whose single filename has a stem ending in a character of the
rstrip set: the stem is img_7g, not a frame-7 name. -/
def bugCache : ImagesCache := [(("S1", "img_7g.jpg"), bugImage)]

/-- A raw detection record of metadata.json before the merge loop tags it
with a survey: frame number, coordinates, numeric class code. -/
structure RawDet where
  frame : Nat
  latitude : JVal
  longitude : JVal
  classCode : Int
deriving DecidableEq

/-- A detection record after line 66 of src/app.py added the survey tag. -/
structure DetRec where
  frame : Nat
  latitude : JVal
  longitude : JVal
  classCode : Int
  survey : String
deriving DecidableEq

/-- A raw roughness record of metadata.json before tagging. -/
structure RawRough where
  latitude : JVal
  longitude : JVal
  magnitudeXY : ℚ
deriving DecidableEq

/-- A roughness record after line 71 of src/app.py added the survey tag. -/
structure RoughRec where
  latitude : JVal
  longitude : JVal
  magnitudeXY : ℚ
  survey : String
deriving DecidableEq

/-- A detection record after line 89 of src/app.py replaced the numeric
class code by the mapped label; the label is missing (NaN) when the code is
outside CLASS_MAP. -/
structure LabeledDet where
  frame : Nat
  latitude : JVal
  longitude : JVal
  label : Option String
  survey : String
deriving DecidableEq

/-- Line 66 of src/app.py: tag a detection with its survey identifier. -/
def tagDet (surveyId : String) (d : RawDet) : DetRec :=
  ⟨d.frame, d.latitude, d.longitude, d.classCode, surveyId⟩

/-- Line 71 of src/app.py: tag a roughness record with its survey. -/
def tagRough (surveyId : String) (r : RawRough) : RoughRec :=
  ⟨r.latitude, r.longitude, r.magnitudeXY, surveyId⟩

/-- Lines 13-18 of src/app.py: the fixed class-code dictionary; lookup of a
key outside the dictionary yields no label (pandas maps it to NaN). -/
def CLASS_MAP (c : Int) : Option String :=
  if c = 0 then some ("Longitudinal Crack (D00)")
  else if c = 1 then some ("Transverse Crack (D10)")
  else if c = 2 then some ("Alligator Crack (D20)")
  else if c = 3 then some ("Pothole (D40)")
  else none

/-- Line 89 of src/app.py: det_df["class"].map(CLASS_MAP), applied to one
record; every other column is untouched. -/
def mapClass (d : DetRec) : LabeledDet :=
  ⟨d.frame, d.latitude, d.longitude, CLASS_MAP d.classCode, d.survey⟩

/-- Lines 88-95 of src/app.py for detections: map the class column, then
dropna on the latitude/longitude columns. -/
def normalizeDet (l : List DetRec) : List LabeledDet :=
  (l.map mapClass).filter
    (fun r => r.latitude.isPresent && r.longitude.isPresent)

/-- Lines 96-97 of src/app.py for roughness: dropna on latitude/longitude. -/
def normalizeRough (l : List RoughRec) : List RoughRec :=
  l.filter (fun r => r.latitude.isPresent && r.longitude.isPresent)

/-- The terminal empty-state conditions of src/app.py (lines 99-101 and
147-149), surfaced as user-visible messages followed by st.stop(). -/
inductive PipelineError where
  | noData
  | noCoordinates
deriving DecidableEq

/-- Lines 87-101 of src/app.py: normalize both accumulated sequences; when
both normalized sequences are empty, warn and stop (NoDataError), otherwise
continue with the normalized sequences. -/
def normalizePipeline (ld : List DetRec) (lr : List RoughRec) :
    Except PipelineError (List LabeledDet × List RoughRec) :=
  let d := normalizeDet ld
  let r := normalizeRough lr
  if d.isEmpty && r.isEmpty then Except.error PipelineError.noData
  else Except.ok (d, r)

/-- The per-source failure conditions caught by the try/except of
lines 57-82 of src/app.py. -/
inductive ArchiveError where
  | corruptContainer
  | missingMetadata
  | malformedJson
deriving DecidableEq

/-- The parsed content of metadata.json (both keys optional, absence is the
empty list, per metadata.get on lines 64 and 69). -/
structure Metadata where
  detections : List RawDet
  roughness : List RawRough

/-- One archive source of the ingestion loop: an optional declared name
(the name attribute read by getattr on line 53) and either its parsed
metadata together with its embedded files, or the error raised while
opening/parsing it. -/
structure ArchiveSource where
  srcName : Option String
  content : Except ArchiveError (Metadata × List (String × Bytes))

/-- Lines 53-55 of src/app.py: derive the survey identifier from the
declared archive name, falling back to Survey_<idx+1>, then strip a
trailing ".zip". -/
def surveyName (declared : Option String) (idx : Nat) : String :=
  let base :=
    match declared with
    | some n => n
    | none => "Survey_" ++ natStr (idx + 1)
  if strEndsWith base zipExt = true then strDropRight base 4 else base

/-- Python dict assignment on line 79: overwrite in place if the key is
already present, otherwise append at the end (insertion order). -/
def dictInsert (cache : ImagesCache) (k : String × String) (v : Bytes) :
    ImagesCache :=
  if cache.any (fun e => decide (e.1 = k)) then
    cache.map (fun e => if e.1 = k then (k, v) else e)
  else cache ++ [(k, v)]

/-- Lines 75-79 of src/app.py: cache the bytes of every embedded file whose
lowercased name ends with ".jpg", keyed by (survey identifier, filename). -/
def cacheImages (cache : ImagesCache) (surveyId : String)
    (files : List (String × Bytes)) : ImagesCache :=
  (files.filter (fun f => strEndsWith (strLower f.1) jpgExt)).foldl
    (fun c f => dictInsert c (surveyId, f.1) f.2) cache

/-- The mutable state of the ingestion loop of lines 46-82: the two
accumulator sequences, the images cache, and the per-source error reports
issued by st.error on line 82. -/
structure IngestState where
  allDetections : List DetRec
  allRoughness : List RoughRec
  imagesCache : ImagesCache
  errors : List (String × ArchiveError)

/-- The state before the loop (lines 46-50). -/
def initState : IngestState := ⟨[], [], [], []⟩

/-- One iteration of the ingestion loop (lines 52-82): on failure, report
the error for this source and keep everything accumulated so far; on
success, append the tagged detections and roughness records and cache the
embedded images. -/
def processSource (st : IngestState) (idx : Nat) (src : ArchiveSource) :
    IngestState :=
  let sname := surveyName src.srcName idx
  match src.content with
  | Except.error e => ⟨st.allDetections, st.allRoughness, st.imagesCache,
      st.errors ++ [(sname, e)]⟩
  | Except.ok (meta, files) =>
      ⟨st.allDetections ++ meta.detections.map (tagDet sname),
       st.allRoughness ++ meta.roughness.map (tagRough sname),
       cacheImages st.imagesCache sname files,
       st.errors⟩

/-- The ingestion loop from position idx onward. -/
def ingestFrom (idx : Nat) (st : IngestState) :
    List ArchiveSource → IngestState
  | [] => st
  | s :: rest => ingestFrom (idx + 1) (processSource st idx s) rest

/-- The whole ingestion loop over an ordered list of archive sources
(enumerate starts at index 0). -/
def ingest (srcs : List ArchiveSource) : IngestState :=
  ingestFrom 0 initState srcs

/-- The detection records a single source at position idx contributes to
the accumulator: its tagged detections on success, nothing on failure. -/
def sourceDets (idx : Nat) (src : ArchiveSource) : List DetRec :=
  match src.content with
  | Except.ok (meta, _) => meta.detections.map (tagDet (surveyName src.srcName idx))
  | Except.error _ => []

/-- The roughness records a single source at position idx contributes. -/
def sourceRough (idx : Nat) (src : ArchiveSource) : List RoughRec :=
  match src.content with
  | Except.ok (meta, _) => meta.roughness.map (tagRough (surveyName src.srcName idx))
  | Except.error _ => []

/-- The error report a single source at position idx contributes. -/
def sourceErrs (idx : Nat) (src : ArchiveSource) : List (String × ArchiveError) :=
  match src.content with
  | Except.ok _ => []
  | Except.error e => [(surveyName src.srcName idx, e)]

/-- Concatenated per-source detection contributions from position idx on. -/
def collectDets (idx : Nat) : List ArchiveSource → List DetRec
  | [] => []
  | s :: rest => sourceDets idx s ++ collectDets (idx + 1) rest

/-- Concatenated per-source roughness contributions from position idx on. -/
def collectRough (idx : Nat) : List ArchiveSource → List RoughRec
  | [] => []
  | s :: rest => sourceRough idx s ++ collectRough (idx + 1) rest

/-- Concatenated per-source error reports from position idx on. -/
def collectErrors (idx : Nat) : List ArchiveSource → List (String × ArchiveError)
  | [] => []
  | s :: rest => sourceErrs idx s ++ collectErrors (idx + 1) rest

/-- The survey identifiers the loop derives, from position idx on. -/
def surveyIdentifiersFrom (idx : Nat) : List ArchiveSource → List String
  | [] => []
  | s :: rest => surveyName s.srcName idx :: surveyIdentifiersFrom (idx + 1) rest

/-- The survey identifiers derived for an ordered archive list. -/
def surveyIdentifiers (srcs : List ArchiveSource) : List String :=
  surveyIdentifiersFrom 0 srcs

/-- Lines 119-128 of src/app.py: keep the records whose survey is among the
selected surveys, then force a hidden category to the empty sequence. -/
def surveyFilter (dets : List LabeledDet) (roughs : List RoughRec)
    (selectedSurveys : List String) (showDetections showRoughness : Bool) :
    List LabeledDet × List RoughRec :=
  let d := dets.filter (fun r => decide (r.survey ∈ selectedSurveys))
  let r := roughs.filter (fun r => decide (r.survey ∈ selectedSurveys))
  let d2 := if showDetections then d else []
  let r2 := if showRoughness then r else []
  (d2, r2)

/-- Lines 137-145 of src/app.py: the concatenated latitude column. -/
def allLatsF (dets : List LabeledDet) (roughs : List RoughRec) : List JVal :=
  dets.map (fun r => r.latitude) ++ roughs.map (fun r => r.latitude)

/-- Lines 137-145 of src/app.py: the concatenated longitude column. -/
def allLonsF (dets : List LabeledDet) (roughs : List RoughRec) : List JVal :=
  dets.map (fun r => r.longitude) ++ roughs.map (fun r => r.longitude)

/-- The numeric entries of the concatenated latitude column (pandas mean
averages the numeric, non-missing entries). -/
def numericLats (dets : List LabeledDet) (roughs : List RoughRec) : List ℚ :=
  (allLatsF dets roughs).filterMap JVal.numQ

/-- The numeric entries of the concatenated longitude column. -/
def numericLons (dets : List LabeledDet) (roughs : List RoughRec) : List ℚ :=
  (allLonsF dets roughs).filterMap JVal.numQ

/-- Line 151 of src/app.py: center_lat = all_lats.mean(). -/
def centerLat (dets : List LabeledDet) (roughs : List RoughRec) : ℚ :=
  (numericLats dets roughs).sum / ((numericLats dets roughs).length : ℚ)

/-- Line 152 of src/app.py: center_lon = all_lons.mean(). -/
def centerLon (dets : List LabeledDet) (roughs : List RoughRec) : ℚ :=
  (numericLons dets roughs).sum / ((numericLons dets roughs).length : ℚ)

/-- Smallest element of a rational list (0 for the empty list), giving the
lower edge of the bounding box of the input coordinates. -/
def listMin : List ℚ → ℚ
  | [] => 0
  | [x] => x
  | x :: y :: ys => min x (listMin (y :: ys))

/-- Largest element of a rational list (0 for the empty list), giving the
upper edge of the bounding box of the input coordinates. -/
def listMax : List ℚ → ℚ
  | [] => 0
  | [x] => x
  | x :: y :: ys => max x (listMax (y :: ys))

/-- Cache used by the cross-survey matcher witness. -/
def wCache : ImagesCache := [(("S1", "img_007.jpg"), [9, 9])]

/-- A raw detection with frame 7 at (10, 20), class 0. -/
def sampleDet : RawDet := ⟨7, JVal.num 10, JVal.num 20, 0⟩

/-- A well-formed archive source named roadA.zip holding one detection and
one image. -/
def goodSrc : ArchiveSource :=
  ⟨some ("roadA.zip"),
   Except.ok (⟨[sampleDet], []⟩, [(("img_007.jpg"), [1, 2, 3])])⟩

/-- A source with the same declared name as goodSrc but different payload
(a reprocessing of the same archive list reads fresh byte streams). -/
def goodSrc2 : ArchiveSource :=
  ⟨some ("roadA.zip"),
   Except.ok (⟨[sampleDet], []⟩, [(("img_007.jpg"), [4, 5, 6])])⟩

/-- A nameless source whose archive lacks metadata.json. -/
def badSrc : ArchiveSource := ⟨none, Except.error ArchiveError.missingMetadata⟩

/-- An ordered archive list with a good first source and a failing second
source. -/
def demoSrcs : List ArchiveSource := [goodSrc, badSrc]

/-- The same ordered archive list reprocessed (same names, fresh bytes). -/
def demoSrcs2 : List ArchiveSource := [goodSrc2, badSrc]

/-- A survey-tagged detection carrying the unrecognized class code 4. -/
def unknownCodeDet : DetRec := ⟨5, JVal.num 10, JVal.num 20, 4, "S1"⟩

/-- A survey-tagged detection whose latitude is a non-numeric string. -/
def strLatDet : DetRec := ⟨3, JVal.str ("12.5"), JVal.num 20, 0, "S1"⟩

/-- A labeled detection at (10, 30) in survey S1. -/
def demoDetA : LabeledDet := ⟨1, JVal.num 10, JVal.num 30, some ("Pothole (D40)"), "S1"⟩

/-- A labeled detection at (20, 40) in survey S1. -/
def demoDetB : LabeledDet := ⟨2, JVal.num 20, JVal.num 40, some ("Pothole (D40)"), "S1"⟩

/-- A selected-surveys set containing only S1. -/
def demoSel : List String := ["S1"]

theorem strApp_data (a b : String) : (a ++ b).data = a.data ++ b.data := rfl

theorem decDigit_ne_p (m : Nat) : ('p' == decDigit m) = false := by
  rcases m with _ | _ | _ | _ | _ | _ | _ | _ | _ | m <;> rfl

theorem decDigitsAux_last (fuel n : Nat) :
    ∃ m rest, (decDigitsAux (fuel + 1) n).reverse = decDigit m :: rest := by
  rw [decDigitsAux]
  by_cases h : n < 10
  · exact ⟨n, [], by simp [h]⟩
  · exact ⟨n % 10, (decDigitsAux fuel (n / 10)).reverse, by simp [h]⟩

theorem surveyFallback_not_zip (k : Nat) :
    strEndsWith ("Survey_" ++ natStr k) zipExt = false := by
  obtain ⟨m, rest, hrev⟩ := decDigitsAux_last k k
  have hz : zipExt.data.reverse = ['p', 'i', 'z', '.'] := rfl
  have hd : ("Survey_" ++ natStr k).data.reverse
      = decDigit m :: (rest ++ ("Survey_" : String).data.reverse) := by
    rw [strApp_data, List.reverse_append]
    show (decDigitsAux (k + 1) k).reverse ++ _ = _
    rw [hrev]
    rfl
  rw [strEndsWith, hz, hd]
  show ('p' == decDigit m && _) = false
  rw [decDigit_ne_p, Bool.false_and]

/-- Claim C1 (code defect witness): for a detection with frame 7 in survey
S1 and a cache holding only (S1, img_7g.jpg), the code returns that image's
bytes, because filename.lower().rstrip(".jpg") removes every trailing
character of the set, turning the stem img_7g into img_7, which ends in 7;
under the specified algorithm (strip the image extension, then
suffix-test), the stem img_7g does not end in 7, so the missing sentinel is
returned. -/
theorem rstrip_extension_divergence :
    fuzzyFrameMatch bugCache ("S1") 7 = some bugImage ∧
    specFrameMatch bugCache ("S1") 7 = none := by decide

/-- Claim C2: whenever the matcher loop of lines 181-186 finds an entry,
that entry is a cache entry whose survey identifier equals the queried
record's survey identifier, and the bytes returned are that entry's
payload; the matcher never returns an image from a different survey. -/
theorem matcher_never_crosses_survey (cache : ImagesCache) (surveyQ : String)
    (frameNum : Nat) (entry : (String × String) × Bytes)
    (h : matchEntry cache surveyQ frameNum = some entry) :
    entry ∈ cache ∧ entry.1.1 = surveyQ ∧
    fuzzyFrameMatch cache surveyQ frameNum = some entry.2 := by
  have h' := h
  unfold matchEntry at h'
  have hmem : entry ∈ cache := List.mem_of_find?_eq_some h'
  have hp := List.find?_some h'
  rw [Bool.and_eq_true] at hp
  refine ⟨hmem, of_decide_eq_true hp.1, ?_⟩
  rw [fuzzyFrameMatch, h]
  rfl

/-- Witness for C2 at a concrete cache: frame 7 in survey S1 resolves to
the (S1, img_007.jpg) entry. -/
theorem matcher_never_crosses_survey_w :
    (("S1", "img_007.jpg"), ([9, 9] : Bytes)) ∈ wCache ∧
    (("S1", "img_007.jpg"), ([9, 9] : Bytes)).1.1 = "S1" ∧
    fuzzyFrameMatch wCache ("S1") 7 = some (("S1", "img_007.jpg"), ([9, 9] : Bytes)).2 :=
  matcher_never_crosses_survey wCache ("S1") 7 (("S1", "img_007.jpg"), [9, 9])
    (by decide)

/-- Claim C4 counterexample: the normalizer does not raise or report a
labeling error for the unrecognized class code 4; it keeps the record and
gives it a missing (blank) label, so not every normalized record carries a
resolved label. -/
theorem unknown_code_blank_cex :
    normalizeDet [unknownCodeDet] = [⟨5, JVal.num 10, JVal.num 20, none, "S1"⟩] ∧
    ¬ (∀ r ∈ normalizeDet [unknownCodeDet], r.label ≠ none) := by decide

/-- Claim C4 (amended): a detection whose class code is outside the fixed
enumeration 0-3 is kept by normalization whenever its coordinates are
present, and it carries a missing (blank) label; no labeling error is
raised. -/
theorem unknown_code_blank_label (l : List DetRec) (d : DetRec)
    (hmem : d ∈ l) (hlat : d.latitude.isPresent = true)
    (hlon : d.longitude.isPresent = true)
    (h0 : d.classCode ≠ 0) (h1 : d.classCode ≠ 1)
    (h2 : d.classCode ≠ 2) (h3 : d.classCode ≠ 3) :
    mapClass d ∈ normalizeDet l ∧ (mapClass d).label = none := by
  have hlabel : CLASS_MAP d.classCode = none := by
    simp [CLASS_MAP, h0, h1, h2, h3]
  constructor
  · rw [normalizeDet, List.mem_filter]
    refine ⟨List.mem_map_of_mem mapClass hmem, ?_⟩
    simp [mapClass, hlat, hlon]
  · simp [mapClass, hlabel]

/-- Witness for the amended C4 at the concrete code-4 record. -/
theorem unknown_code_blank_label_w :
    mapClass unknownCodeDet ∈ normalizeDet [unknownCodeDet] ∧
    (mapClass unknownCodeDet).label = none :=
  unknown_code_blank_label [unknownCodeDet] unknownCodeDet (by decide)
    (by decide) (by decide) (by decide) (by decide) (by decide) (by decide)

/-- Claim C5 counterexample: a record whose latitude is a non-numeric
string survives normalization (dropna drops only missing cells), so the
output is not guaranteed to carry numeric coordinates. -/
theorem nonnumeric_coordinate_kept_cex :
    normalizeDet [strLatDet]
      = [⟨3, JVal.str ("12.5"), JVal.num 20, some ("Longitudinal Crack (D00)"), "S1"⟩] ∧
    ¬ (∀ r ∈ normalizeDet [strLatDet],
        r.latitude.isNum = true ∧ r.longitude.isNum = true) := by decide

/-- Claim C5 (amended): normalization discards exactly the records whose
latitude or longitude is missing; every surviving record has both
coordinates present (though not necessarily numeric), and every record
with both coordinates present survives. -/
theorem normalization_drops_missing_only (ld : List DetRec) (lr : List RoughRec) :
    (∀ r ∈ normalizeDet ld,
      r.latitude.isPresent = true ∧ r.longitude.isPresent = true) ∧
    (∀ r ∈ normalizeRough lr,
      r.latitude.isPresent = true ∧ r.longitude.isPresent = true) ∧
    (∀ d ∈ ld, d.latitude.isPresent = true → d.longitude.isPresent = true →
      mapClass d ∈ normalizeDet ld) ∧
    (∀ r ∈ lr, r.latitude.isPresent = true → r.longitude.isPresent = true →
      r ∈ normalizeRough lr) := by
  refine ⟨?_, ?_, ?_, ?_⟩
  · intro r hr
    rw [normalizeDet, List.mem_filter] at hr
    have hb := hr.2
    rw [Bool.and_eq_true] at hb
    exact hb
  · intro r hr
    rw [normalizeRough, List.mem_filter] at hr
    have hb := hr.2
    rw [Bool.and_eq_true] at hb
    exact hb
  · intro d hd hd1 hd2
    rw [normalizeDet, List.mem_filter]
    refine ⟨List.mem_map_of_mem mapClass hd, ?_⟩
    simp [mapClass, hd1, hd2]
  · intro r hr hr1 hr2
    rw [normalizeRough, List.mem_filter]
    exact ⟨hr, by rw [hr1, hr2]; rfl⟩

/-- Witness for the amended C5: the string-latitude record survives. -/
theorem normalization_drops_missing_only_w :
    mapClass strLatDet ∈ normalizeDet [strLatDet] :=
  (normalization_drops_missing_only [strLatDet] []).2.2.1 strLatDet (by decide)
    (by decide) (by decide)

/-- Claim C6: the pipeline signals NoDataError exactly when both normalized
sequences are empty, and otherwise continues with the two normalized
sequences. -/
theorem no_data_error_iff_both_empty (ld : List DetRec) (lr : List RoughRec) :
    (normalizePipeline ld lr = Except.error PipelineError.noData ↔
      (normalizeDet ld = [] ∧ normalizeRough lr = [])) ∧
    (¬ (normalizeDet ld = [] ∧ normalizeRough lr = []) →
      normalizePipeline ld lr = Except.ok (normalizeDet ld, normalizeRough lr)) := by
  cases hd : normalizeDet ld with
  | nil =>
    cases hr : normalizeRough lr with
    | nil => simp [normalizePipeline, hd, hr]
    | cons b u => simp [normalizePipeline, hd, hr]
  | cons a t =>
    cases hr : normalizeRough lr with
    | nil => simp [normalizePipeline, hd, hr]
    | cons b u => simp [normalizePipeline, hd, hr]

/-- Witness for C6: with nothing ingested, the pipeline stops with the
no-data message. -/
theorem no_data_error_iff_both_empty_w :
    normalizePipeline [] [] = Except.error PipelineError.noData :=
  (no_data_error_iff_both_empty [] []).1.mpr ⟨rfl, rfl⟩

/-- Claim C7: the filter keeps exactly the records whose survey is in the
selected set, a hidden category's output is forced empty, and the filter is
a total function returning (possibly empty) sequences. -/
theorem survey_filter_exact (dets : List LabeledDet) (roughs : List RoughRec)
    (selectedSurveys : List String) (showDetections showRoughness : Bool) :
    (∀ x, x ∈ (surveyFilter dets roughs selectedSurveys showDetections showRoughness).1 ↔
      (showDetections = true ∧ x ∈ dets ∧ x.survey ∈ selectedSurveys)) ∧
    (∀ x, x ∈ (surveyFilter dets roughs selectedSurveys showDetections showRoughness).2 ↔
      (showRoughness = true ∧ x ∈ roughs ∧ x.survey ∈ selectedSurveys)) ∧
    (showDetections = false →
      (surveyFilter dets roughs selectedSurveys showDetections showRoughness).1 = []) ∧
    (showRoughness = false →
      (surveyFilter dets roughs selectedSurveys showDetections showRoughness).2 = []) := by
  cases showDetections <;> cases showRoughness <;>
    simp [surveyFilter, List.mem_filter]

/-- Witness for C7 at a concrete selection. -/
theorem survey_filter_exact_w :
    demoDetA ∈ (surveyFilter [demoDetA] [] demoSel true true).1 :=
  ((survey_filter_exact [demoDetA] [] demoSel true true).1 demoDetA).mpr
    ⟨rfl, by decide, by decide⟩

/-- Claim C10: each filtered output sequence is a subsequence of its input
sequence, so filtering preserves the original relative order. -/
theorem survey_filter_preserves_order (dets : List LabeledDet)
    (roughs : List RoughRec) (selectedSurveys : List String)
    (showDetections showRoughness : Bool) :
    List.Sublist
      (surveyFilter dets roughs selectedSurveys showDetections showRoughness).1
      dets ∧
    List.Sublist
      (surveyFilter dets roughs selectedSurveys showDetections showRoughness).2
      roughs := by
  constructor
  · cases showDetections <;> simp [surveyFilter]
  · cases showRoughness <;> simp [surveyFilter]

theorem ingestFrom_spec (srcs : List ArchiveSource) :
    ∀ (idx : Nat) (st : IngestState),
    (ingestFrom idx st srcs).allDetections
        = st.allDetections ++ collectDets idx srcs ∧
    (ingestFrom idx st srcs).allRoughness
        = st.allRoughness ++ collectRough idx srcs ∧
    (ingestFrom idx st srcs).errors = st.errors ++ collectErrors idx srcs := by
  induction srcs with
  | nil =>
    intro idx st
    simp [ingestFrom, collectDets, collectRough, collectErrors]
  | cons s rest ih =>
    intro idx st
    obtain ⟨h1, h2, h3⟩ := ih (idx + 1) (processSource st idx s)
    cases hc : s.content with
    | error e =>
      simp only [processSource, hc] at h1 h2 h3
      refine ⟨?_, ?_, ?_⟩ <;>
        simp [ingestFrom, collectDets, collectRough, collectErrors,
          sourceDets, sourceRough, sourceErrs, processSource, hc, h1, h2, h3,
          List.append_assoc]
    | ok v =>
      obtain ⟨meta, files⟩ := v
      simp only [processSource, hc] at h1 h2 h3
      refine ⟨?_, ?_, ?_⟩ <;>
        simp [ingestFrom, collectDets, collectRough, collectErrors,
          sourceDets, sourceRough, sourceErrs, processSource, hc, h1, h2, h3,
          List.append_assoc]

theorem collectErrors_mem (srcs : List ArchiveSource) :
    ∀ (idx i : Nat) (s : ArchiveSource) (e : ArchiveError),
    srcs[i]? = some s → s.content = Except.error e →
    (surveyName s.srcName (idx + i), e) ∈ collectErrors idx srcs := by
  induction srcs with
  | nil =>
    intro idx i s e h hc
    simp at h
  | cons a rest ih =>
    intro idx i s e h hc
    cases i with
    | zero =>
      simp at h
      subst h
      simp [collectErrors, sourceErrs, hc]
    | succ j =>
      simp at h
      have hmem := ih (idx + 1) j s e h hc
      have heq : idx + 1 + j = idx + (j + 1) := by omega
      rw [heq] at hmem
      simp [collectErrors]
      exact Or.inr hmem

/-- Claim C3: when the source at position i fails (corrupt container,
missing metadata.json, or malformed JSON), ingestion reports that source's
error individually, that source contributes no detection or roughness
records, and the accumulated sequences are exactly the in-order
concatenation of every source's contribution — records of the other
sources are preserved and processing continues past the failure. -/
theorem ingest_isolates_failing_source (srcs : List ArchiveSource) (i : Nat)
    (s : ArchiveSource) (e : ArchiveError)
    (hget : srcs[i]? = some s) (hfail : s.content = Except.error e) :
    sourceDets i s = [] ∧ sourceRough i s = [] ∧
    (surveyName s.srcName i, e) ∈ (ingest srcs).errors ∧
    (ingest srcs).allDetections = collectDets 0 srcs ∧
    (ingest srcs).allRoughness = collectRough 0 srcs := by
  obtain ⟨h1, h2, h3⟩ := ingestFrom_spec srcs 0 initState
  refine ⟨by simp [sourceDets, hfail], by simp [sourceRough, hfail], ?_, ?_, ?_⟩
  · rw [ingest, h3]
    have hmem := collectErrors_mem srcs 0 i s e hget hfail
    rw [Nat.zero_add] at hmem
    simpa [initState] using hmem
  · rw [ingest, h1]
    simp [initState]
  · rw [ingest, h2]
    simp [initState]

/-- Witness for C3: a two-source list whose second archive lacks
metadata.json; the failure is reported and the first source's records are
all that accumulates. -/
theorem ingest_isolates_failing_source_w :
    sourceDets 1 badSrc = [] ∧ sourceRough 1 badSrc = [] ∧
    (surveyName badSrc.srcName 1, ArchiveError.missingMetadata)
        ∈ (ingest demoSrcs).errors ∧
    (ingest demoSrcs).allDetections = collectDets 0 demoSrcs ∧
    (ingest demoSrcs).allRoughness = collectRough 0 demoSrcs :=
  ingest_isolates_failing_source demoSrcs 1 badSrc ArchiveError.missingMetadata
    rfl rfl

theorem surveyIdentifiersFrom_names (srcs : List ArchiveSource) :
    ∀ (srcs' : List ArchiveSource) (idx : Nat),
    srcs.map ArchiveSource.srcName = srcs'.map ArchiveSource.srcName →
    surveyIdentifiersFrom idx srcs = surveyIdentifiersFrom idx srcs' := by
  induction srcs with
  | nil =>
    intro srcs' idx h
    cases srcs' with
    | nil => rfl
    | cons b l => simp at h
  | cons a rest ih =>
    intro srcs' idx h
    cases srcs' with
    | nil => simp at h
    | cons b l =>
      simp at h
      simp [surveyIdentifiersFrom, surveyName, h.1, ih l (idx + 1) h.2]

theorem surveyIdentifiersFrom_get (srcs : List ArchiveSource) :
    ∀ (idx i : Nat) (s : ArchiveSource),
    srcs[i]? = some s →
    (surveyIdentifiersFrom idx srcs)[i]? = some (surveyName s.srcName (idx + i)) := by
  induction srcs with
  | nil =>
    intro idx i s h
    simp at h
  | cons a rest ih =>
    intro idx i s h
    cases i with
    | zero =>
      simp at h
      subst h
      simp [surveyIdentifiersFrom]
    | succ j =>
      simp at h
      have hg := ih (idx + 1) j s h
      have heq : idx + 1 + j = idx + (j + 1) := by omega
      rw [heq] at hg
      simpa [surveyIdentifiersFrom] using hg

/-- Claim C8: survey identifier assignment is deterministic — it depends
only on the ordered list of declared archive names, so reprocessing the
same ordered archive list yields identical identifiers — and the identifier
at position i is the declared name with a trailing ".zip" stripped, or
Survey_<i+1> when no name is available. -/
theorem survey_identifiers_deterministic (srcs srcs' : List ArchiveSource)
    (i : Nat) (s : ArchiveSource)
    (hsame : srcs.map ArchiveSource.srcName = srcs'.map ArchiveSource.srcName)
    (hget : srcs[i]? = some s) :
    surveyIdentifiers srcs = surveyIdentifiers srcs' ∧
    (surveyIdentifiers srcs)[i]?
      = some (match s.srcName with
              | some n => if strEndsWith n zipExt = true then strDropRight n 4 else n
              | none => "Survey_" ++ natStr (i + 1)) := by
  constructor
  · exact surveyIdentifiersFrom_names srcs srcs' 0 hsame
  · have hg := surveyIdentifiersFrom_get srcs 0 i s hget
    rw [Nat.zero_add] at hg
    rw [surveyIdentifiers, hg]
    cases hn : s.srcName with
    | some n => simp [surveyName, hn]
    | none => simp [surveyName, hn, surveyFallback_not_zip]

/-- Witness for C8: reprocessing the demo archive list (same names, fresh
byte payloads) yields identical identifiers, and the nameless second source
gets Survey_2. -/
theorem survey_identifiers_deterministic_w :
    surveyIdentifiers demoSrcs = surveyIdentifiers demoSrcs2 ∧
    (surveyIdentifiers demoSrcs)[1]? = some ("Survey_" ++ natStr (1 + 1)) :=
  survey_identifiers_deterministic demoSrcs demoSrcs2 1 badSrc rfl rfl

theorem listMin_le_mem (l : List ℚ) : ∀ x ∈ l, listMin l ≤ x := by
  induction l with
  | nil =>
    intro x hx
    simp at hx
  | cons a t ih =>
    intro x hx
    cases t with
    | nil =>
      rw [List.mem_singleton] at hx
      subst hx
      exact le_refl x
    | cons b u =>
      have hL : listMin (a :: b :: u) = min a (listMin (b :: u)) := rfl
      rw [List.mem_cons] at hx
      rcases hx with rfl | hx
      · rw [hL]; exact min_le_left _ _
      · rw [hL]; exact le_trans (min_le_right _ _) (ih x hx)

theorem mem_le_listMax (l : List ℚ) : ∀ x ∈ l, x ≤ listMax l := by
  induction l with
  | nil =>
    intro x hx
    simp at hx
  | cons a t ih =>
    intro x hx
    cases t with
    | nil =>
      rw [List.mem_singleton] at hx
      subst hx
      exact le_refl x
    | cons b u =>
      have hL : listMax (a :: b :: u) = max a (listMax (b :: u)) := rfl
      rw [List.mem_cons] at hx
      rcases hx with rfl | hx
      · rw [hL]; exact le_max_left _ _
      · rw [hL]; exact le_trans (ih x hx) (le_max_right _ _)

theorem mul_length_le_sum (l : List ℚ) (a : ℚ) (h : ∀ x ∈ l, a ≤ x) :
    a * (l.length : ℚ) ≤ l.sum := by
  induction l with
  | nil => simp
  | cons b t ih =>
    have hb : a ≤ b := h b (List.mem_cons_self b t)
    have ht := ih (fun x hx => h x (List.mem_cons_of_mem b hx))
    simp only [List.sum_cons, List.length_cons]
    push_cast
    have hexp : a * ((t.length : ℚ) + 1) = a * (t.length : ℚ) + a := by ring
    linarith

theorem sum_le_mul_length (l : List ℚ) (a : ℚ) (h : ∀ x ∈ l, x ≤ a) :
    l.sum ≤ a * (l.length : ℚ) := by
  induction l with
  | nil => simp
  | cons b t ih =>
    have hb : b ≤ a := h b (List.mem_cons_self b t)
    have ht := ih (fun x hx => h x (List.mem_cons_of_mem b hx))
    simp only [List.sum_cons, List.length_cons]
    push_cast
    have hexp : a * ((t.length : ℚ) + 1) = a * (t.length : ℚ) + a := by ring
    linarith

theorem mean_in_bounds (l : List ℚ) (hl : l ≠ []) :
    listMin l ≤ l.sum / (l.length : ℚ) ∧ l.sum / (l.length : ℚ) ≤ listMax l := by
  have hpos : 0 < (l.length : ℚ) := by
    have hp := List.length_pos.mpr hl
    exact_mod_cast hp
  constructor
  · rw [le_div_iff₀ hpos]
    exact mul_length_le_sum l (listMin l) (listMin_le_mem l)
  · rw [div_le_iff₀ hpos]
    exact sum_le_mul_length l (listMax l) (mem_le_listMax l)

theorem filterMap_numQ_all (l : List JVal) (h : ∀ v ∈ l, v.isNum = true) :
    (l.filterMap JVal.numQ).length = l.length := by
  induction l with
  | nil => rfl
  | cons v t ih =>
    have hv := h v (List.mem_cons_self v t)
    have ht := ih (fun x hx => h x (List.mem_cons_of_mem v hx))
    cases v with
    | num q => simp [List.filterMap_cons, JVal.numQ, ht]
    | str s => simp [JVal.isNum] at hv
    | null => simp [JVal.isNum] at hv

/-- Claim C9: for non-empty filtered sequences with numeric coordinates,
the centroid — the arithmetic mean of all latitude values and all longitude
values across both sequences combined — lies within the bounding box
[min latitude, max latitude] x [min longitude, max longitude] of the input
coordinates. -/
theorem centroid_within_bbox (dets : List LabeledDet) (roughs : List RoughRec)
    (hlat : ∀ v ∈ allLatsF dets roughs, v.isNum = true)
    (hlon : ∀ v ∈ allLonsF dets roughs, v.isNum = true)
    (hne : dets ≠ [] ∨ roughs ≠ []) :
    listMin (numericLats dets roughs) ≤ centerLat dets roughs ∧
    centerLat dets roughs ≤ listMax (numericLats dets roughs) ∧
    listMin (numericLons dets roughs) ≤ centerLon dets roughs ∧
    centerLon dets roughs ≤ listMax (numericLons dets roughs) := by
  have hlen : 0 < (allLatsF dets roughs).length := by
    have hh : (allLatsF dets roughs).length = dets.length + roughs.length := by
      simp [allLatsF]
    rw [hh]
    rcases hne with h | h
    · have hp := List.length_pos.mpr h
      omega
    · have hp := List.length_pos.mpr h
      omega
  have hlenLon : (allLonsF dets roughs).length = (allLatsF dets roughs).length := by
    simp [allLatsF, allLonsF]
  have hLatsNe : numericLats dets roughs ≠ [] := by
    rw [← List.length_pos, numericLats,
      filterMap_numQ_all (allLatsF dets roughs) hlat]
    exact hlen
  have hLonsNe : numericLons dets roughs ≠ [] := by
    rw [← List.length_pos, numericLons,
      filterMap_numQ_all (allLonsF dets roughs) hlon, hlenLon]
    exact hlen
  obtain ⟨hb1, hb2⟩ := mean_in_bounds (numericLats dets roughs) hLatsNe
  obtain ⟨hb3, hb4⟩ := mean_in_bounds (numericLons dets roughs) hLonsNe
  exact ⟨hb1, hb2, hb3, hb4⟩

/-- Witness for C9 at two detections with latitudes 10, 20 and longitudes
30, 40: the centroid (15, 35) lies within the bounding box. -/
theorem centroid_within_bbox_w :
    listMin (numericLats [demoDetA, demoDetB] [])
        ≤ centerLat [demoDetA, demoDetB] [] ∧
    centerLat [demoDetA, demoDetB] []
        ≤ listMax (numericLats [demoDetA, demoDetB] []) ∧
    listMin (numericLons [demoDetA, demoDetB] [])
        ≤ centerLon [demoDetA, demoDetB] [] ∧
    centerLon [demoDetA, demoDetB] []
        ≤ listMax (numericLons [demoDetA, demoDetB] []) :=
  centroid_within_bbox [demoDetA, demoDetB] [] (by decide) (by decide)
    (Or.inl (by decide))

end RoadSurvey
